import Mathlib

/-!
Verification of the Teddy finance-assistant core (session cache, identity
validation, history loading, record summarisation, context assembly and the
per-message orchestration) against its natural-language specification.

The Python source is shallowly embedded: every function below mirrors the
control flow of the corresponding function in the repository.  External HTTP
calls are represented by an oracle environment `Env` holding the response of
each endpoint, and every embedded function additionally returns the list of
network requests it issues, so that call-count properties can be stated.
Python floats are modelled exactly as IEEE-754 binary64 values: a float is a
rational number, and each arithmetic operation rounds its exact rational
result to the nearest representable value (ties to even).
-/

set_option maxRecDepth 8000

namespace Teddy

/-! ## Python string primitives -/

/-- One step of substring search: `needle` occurs in a list iff it is a
prefix of the list or occurs in its tail.  Mirrors the Python `in` operator
on strings. -/
def listContains (needle : List Char) : List Char → Bool
  | [] => needle.isPrefixOf []
  | a :: t => needle.isPrefixOf (a :: t) || listContains needle t

/-- Python `needle in hay` for strings. -/
def strContains (hay needle : String) : Bool :=
  listContains needle.data hay.data

/-- Python `str.lower()` (characterwise lowering). -/
def pyLower (s : String) : String := String.mk (s.data.map Char.toLower)

/-- Python `str.strip()`: remove leading and trailing whitespace. -/
def pyStrip (s : String) : String :=
  String.mk (List.rdropWhile Char.isWhitespace (List.dropWhile Char.isWhitespace s.data))

theorem pyStrip_empty : pyStrip "" = "" := rfl

theorem dropWhile_suffix_ex {α : Type} (p : α → Bool) (l : List α) :
    ∃ t, t ++ List.dropWhile p l = l := by
  induction l with
  | nil => exact ⟨[], rfl⟩
  | cons a s ih =>
    by_cases h : p a
    · obtain ⟨t, ht⟩ := ih
      exact ⟨a :: t, by simp [List.dropWhile_cons, h, ht]⟩
    · exact ⟨[], by simp [List.dropWhile_cons, h]⟩

theorem rdropWhile_pre_ex {α : Type} (p : α → Bool) (l : List α) :
    ∃ t, List.rdropWhile p l ++ t = l := by
  obtain ⟨t, ht⟩ := dropWhile_suffix_ex p l.reverse
  refine ⟨t.reverse, ?_⟩
  have := congrArg List.reverse ht
  simpa [List.rdropWhile] using this

theorem dropWhile_head_false {α : Type} {p : α → Bool} {l : List α} {a : α} {t : List α}
    (h : List.dropWhile p l = a :: t) : p a = false := by
  induction l with
  | nil => simp at h
  | cons b s ih =>
    by_cases hb : p b
    · rw [List.dropWhile_cons, if_pos hb] at h
      exact ih h
    · rw [List.dropWhile_cons, if_neg hb] at h
      cases h
      cases hq : p a
      · rfl
      · exact absurd hq hb

theorem stripCore_idem (l : List Char) :
    List.rdropWhile Char.isWhitespace
        (List.dropWhile Char.isWhitespace
          (List.rdropWhile Char.isWhitespace (List.dropWhile Char.isWhitespace l)))
      = List.rdropWhile Char.isWhitespace (List.dropWhile Char.isWhitespace l) := by
  set p : Char → Bool := Char.isWhitespace with hp
  set m : List Char := List.dropWhile p l with hm
  have h1 : List.dropWhile p m = m := by
    rw [hm]; exact List.dropWhile_idempotent p l
  have h2 : List.dropWhile p (List.rdropWhile p m) = List.rdropWhile p m := by
    rcases hpre : List.rdropWhile p m with _ | ⟨a, t⟩
    · simp
    · obtain ⟨r, hr⟩ := rdropWhile_pre_ex p m
      rw [hpre] at hr
      have hmm : List.dropWhile p m = a :: (t ++ r) := by
        rw [h1, ← hr]; simp
      have hne : p a = false := dropWhile_head_false hmm
      simp [List.dropWhile_cons, hne]
  calc List.rdropWhile p (List.dropWhile p (List.rdropWhile p m))
      = List.rdropWhile p (List.rdropWhile p m) := by rw [h2]
    _ = List.rdropWhile p m := List.rdropWhile_idempotent p m

/-- Stripping is idempotent, so the repeated `.strip()` calls along the
pipeline all agree. -/
theorem pyStrip_idem (s : String) : pyStrip (pyStrip s) = pyStrip s :=
  congrArg String.mk (stripCore_idem s.data)

theorem pyStrip_ne_empty {s : String} (h : pyStrip s ≠ "") : s ≠ "" := by
  intro he
  exact h (by rw [he]; rfl)

/-! ## IEEE-754 binary64 ("Python float") model

A double is a pair of integer mantissa and binary exponent denoting the
exact value `m * 2 ^ e`.  `roundFrac n d` sends the rational `n / d` to the
nearest binary64 value, rounding ties to even, and every arithmetic
operation rounds its exact result.  Rounded results are normalised:
`m = 0`, or `2 ^ 52 ≤ |m| < 2 ^ 53`, so equal values have equal
representations.  The exponent range is unbounded (no overflow and no
subnormals), which is faithful for every magnitude occurring in this
development. -/

def pow2 (k : ℕ) : ℤ := ((2 ^ k : ℕ) : ℤ)

/-- A binary64 value `m * 2 ^ e`. -/
structure F where
  m : ℤ
  e : ℤ
deriving DecidableEq

/-- Exact rational value of a double (used in statements). -/
def F.toRat (x : F) : ℚ := (x.m : ℚ) * (2 : ℚ) ^ x.e

/-- Round half to even of `n / d` to an integer (`n ≥ 0`, `d > 0`). -/
def rheFrac (n d : ℤ) : ℤ :=
  let q := n.ediv d
  let r := n.emod d
  if 2 * r < d then q
  else if d < 2 * r then q + 1
  else if q.emod 2 = 0 then q else q + 1

/-- Scale the positive fraction `n / d` into the binary64 significand range:
the result `(n₁, d₁, e₁)` satisfies `n / d = (n₁ / d₁) * 2 ^ e₁` with
`2 ^ 52 ≤ n₁ / d₁ < 2 ^ 53` (given enough fuel). -/
def scaleFrac : ℕ → ℤ × ℤ × ℤ → ℤ × ℤ × ℤ
  | 0, x => x
  | fuel + 1, (n, d, e) =>
    if n < pow2 52 * d then scaleFrac fuel (2 * n, d, e - 1)
    else if pow2 53 * d ≤ n then scaleFrac fuel (n, 2 * d, e + 1)
    else (n, d, e)

/-- Round the positive fraction `n / d` to the nearest binary64 value. -/
def roundPosFrac (n d : ℤ) : F :=
  let x := scaleFrac 400 (n, d, 0)
  let s := rheFrac x.1 x.2.1
  if s = pow2 53 then ⟨pow2 52, x.2.2 + 1⟩ else ⟨s, x.2.2⟩

/-- Round the fraction `n / d` (`d > 0`) to the nearest binary64 value. -/
def roundFrac (n d : ℤ) : F :=
  if n = 0 then ⟨0, 0⟩
  else if n < 0 then
    let p := roundPosFrac (-n) d
    ⟨-p.m, p.e⟩
  else roundPosFrac n d

/-- Round the exact value `M * 2 ^ e0` to the nearest binary64 value. -/
def roundScaled (M e0 : ℤ) : F :=
  if 0 ≤ e0 then roundFrac (M * pow2 e0.toNat) 1 else roundFrac M (pow2 (-e0).toNat)

/-- Double addition: align the mantissas and round the exact sum. -/
def fadd (a b : F) : F :=
  let e0 := min a.e b.e
  roundScaled (a.m * pow2 (a.e - e0).toNat + b.m * pow2 (b.e - e0).toNat) e0

def F.neg (x : F) : F := ⟨-x.m, x.e⟩

/-- Double subtraction: round the exact difference. -/
def fsub (a b : F) : F := fadd a (F.neg b)

/-- Double multiplication: round the exact product. -/
def fmul (a b : F) : F := roundScaled (a.m * b.m) (a.e + b.e)

def F.zero : F := ⟨0, 0⟩

/-- The double holding the natural number `n` (exact for `n < 2 ^ 53`). -/
def F.ofNat (n : ℕ) : F := roundFrac n 1

/-- Python `sum` over a list of floats: left fold of double additions
starting from zero. -/
def pySum (l : List F) : F := l.foldl fadd F.zero

/-- Python `int()` on a nonnegative double: truncation to an integer. -/
def F.toIntTrunc (x : F) : ℤ :=
  if 0 ≤ x.e then x.m * pow2 x.e.toNat else x.m.ediv (pow2 (-x.e).toNat)

/-- Two-digit zero-padded rendering of a value below 100. -/
def pad2 (n : ℕ) : String := if n < 10 then "0" ++ toString n else toString n

/-- Rendering of a nonnegative double with two decimal places (correctly
rounded, ties to even). -/
def moneyNN (x : F) : String :=
  let c : ℤ :=
    if 0 ≤ x.e then x.m * 100 * pow2 x.e.toNat
    else rheFrac (x.m * 100) (pow2 (-x.e).toNat)
  let n := c.toNat
  toString (n / 100) ++ "." ++ pad2 (n % 100)

/-- Python `f"{x:.2f}"` on a double value. -/
def money (x : F) : String :=
  if x.m < 0 then "-" ++ moneyNN ⟨-x.m, x.e⟩ else moneyNN x

/-! ## Data model

Shallow embedding of the JSON values flowing through the system.  A raw
transaction has a `transactionType` string (the code compares it with the
literals "income" and "expense"), a float `amount` and an optional
`description`. -/

structure Transaction where
  transactionType : String
  amount : F
  description : Option String
deriving DecidableEq

/-- One entry of the `daily` array of the report: `_id` is the date. -/
structure DayRec where
  id : String
  transactions : List Transaction
deriving DecidableEq

/-- One entry of the `weekly` array of the report. -/
structure WeekRec where
  id : String
  weekStartDate : String
  weekEndDate : String
  transactions : List Transaction
deriving DecidableEq

/-- One entry of the `monthly` array of the report. -/
structure MonthRec where
  id : String
  transactions : List Transaction
deriving DecidableEq

/-- The report object returned by the record store.  `extraKeys` records
whether the JSON object carries keys other than the three known ones, so
that Python dict truthiness (`bool(data)`) can be modelled. -/
structure ExpenseData where
  daily : Option (List DayRec)
  weekly : Option (List WeekRec)
  monthly : Option (List MonthRec)
  extraKeys : Bool
deriving DecidableEq

/-- Python `bool(data)` for the report object: true iff it has any key. -/
def dictNonEmpty (d : ExpenseData) : Bool :=
  d.daily.isSome || d.weekly.isSome || d.monthly.isSome || d.extraKeys

/-- A processed chunk as built by `SimpleExpenseRAG._process_data`: the
`type` field, the `date` or `period` key, the rendered text, and the three
float totals. -/
structure Chunk where
  ctype : String
  period : String
  text : String
  total_income : F
  total_expenses : F
  net : F
deriving DecidableEq

/-- `sum([t[amount] for t in transactions if t[transactionType] == tt])`. -/
def typeTotal (tt : String) (ts : List Transaction) : F :=
  pySum ((ts.filter (fun t => t.transactionType == tt)).map Transaction.amount)

/-- One line of the daily itemised transaction listing. -/
def txLine (t : Transaction) : String :=
  "- " ++ t.transactionType ++ ": $" ++ money t.amount ++ " - " ++
    t.description.getD "N/A" ++ "\n"

/-- Daily branch of `_process_data`. -/
def dailyChunk (day : DayRec) : Chunk :=
  let ti := typeTotal "income" day.transactions
  let te := typeTotal "expense" day.transactions
  { ctype := "daily"
  , period := day.id
  , text := "Date: " ++ day.id ++ "\n" ++
      "Income: $" ++ money ti ++ ", Expenses: $" ++ money te ++
        ", Net: $" ++ money (fsub ti te) ++ "\n" ++
      "Transactions:\n" ++ String.join (day.transactions.map txLine)
  , total_income := ti
  , total_expenses := te
  , net := fsub ti te }

/-- Weekly branch of `_process_data`. -/
def weeklyChunk (week : WeekRec) : Chunk :=
  let ti := typeTotal "income" week.transactions
  let te := typeTotal "expense" week.transactions
  { ctype := "weekly"
  , period := week.id
  , text := "Week: " ++ week.weekStartDate ++ " to " ++ week.weekEndDate ++ "\n" ++
      "Income: $" ++ money ti ++ ", Expenses: $" ++ money te ++ "\n" ++
      "Net: $" ++ money (fsub ti te) ++ "\n"
  , total_income := ti
  , total_expenses := te
  , net := fsub ti te }

/-- Monthly branch of `_process_data`. -/
def monthlyChunk (month : MonthRec) : Chunk :=
  let ti := typeTotal "income" month.transactions
  let te := typeTotal "expense" month.transactions
  { ctype := "monthly"
  , period := month.id
  , text := "Month: " ++ month.id ++ "\n" ++
      "Income: $" ++ money ti ++ ", Expenses: $" ++ money te ++ "\n" ++
      "Net: $" ++ money (fsub ti te) ++ "\n"
  , total_income := ti
  , total_expenses := te
  , net := fsub ti te }

/-- `SimpleExpenseRAG._process_data`: the chunk list accumulated over the
`daily`, `weekly` and `monthly` keys, in that order, preserving the order
of the periods inside each key. -/
def process_data (d : ExpenseData) : List Chunk :=
  (match d.daily with
   | some days => days.map dailyChunk
   | none => []) ++
  (match d.weekly with
   | some weeks => weeks.map weeklyChunk
   | none => []) ++
  (match d.monthly with
   | some months => months.map monthlyChunk
   | none => [])

/-- One persisted-history entry: a JSON object whose `human` and
`assistant` keys are read with `.get(key, "")`. -/
structure HistEntry where
  human : Option String
  assistant : Option String
deriving DecidableEq

/-- The mutable state of one `SimpleExpenseRAG` instance. -/
structure SessState where
  expense_data : Option ExpenseData
  processed_chunks : List Chunk
  chat_history : List HistEntry
  current_conversation : List (String × String)
deriving DecidableEq

/-- State of a freshly constructed instance (`__init__`, also the result of
`reset_conversation_state`). -/
def freshSession : SessState :=
  { expense_data := none, processed_chunks := [], chat_history := [],
    current_conversation := [] }

/-- `SimpleExpenseRAG.set_expense_data`: a truthy dict is processed into
chunks; `None` (and a falsy dict) clears the data and the chunks. -/
def set_expense_data (st : SessState) (d : Option ExpenseData) : SessState :=
  match d with
  | some dd =>
    if dictNonEmpty dd then
      { st with expense_data := some dd, processed_chunks := process_data dd }
    else
      { st with expense_data := none, processed_chunks := [] }
  | none => { st with expense_data := none, processed_chunks := [] }

/-- `SimpleExpenseRAG._build_context`: three labelled sections appended
into one part list, each guarded by the truthiness of its collection, then
joined with newlines.  (The `query` parameter of the Python method is
unused by its body.) -/
def build_context (st : SessState) : String :=
  let p1 : List String :=
    if st.processed_chunks.isEmpty then []
    else "=== ALL EXPENSE DATA ===" ::
      ((List.enumFrom 1 st.processed_chunks).map
        (fun ic => "Data " ++ toString ic.1 ++ " (" ++ ic.2.ctype ++ "):\n" ++ ic.2.text))
  let p2 : List String :=
    if st.chat_history.isEmpty then []
    else
      let recent := st.chat_history.drop (st.chat_history.length - 3)
      "\n=== PREVIOUS CONVERSATIONS ===" ::
        ((List.enumFrom 1 recent).map
          (fun ic => ["Previous " ++ toString ic.1 ++ ":",
                      "Human: " ++ ic.2.human.getD "",
                      "Assistant: " ++ ic.2.assistant.getD ""])).flatten
  let p3 : List String :=
    if st.current_conversation.isEmpty then []
    else "\n=== CURRENT CONVERSATION ===" ::
      ((List.enumFrom 1 st.current_conversation).map
        (fun ic => ["Exchange " ++ toString ic.1 ++ ":",
                    "Human: " ++ ic.2.1,
                    "Assistant: " ++ ic.2.2])).flatten
  String.intercalate "\n" (p1 ++ p2 ++ p3)

/-! ## External-call oracle

Each embedded function returns, next to its result, the list of network
requests it issued, tagged by call site.  The environment fixes the
response of each endpoint for the duration of one turn. -/

/-- A network request, tagged by which call in the source issues it. -/
inductive Req where
  /-- `GET history/get-history` issued by `validate_user_exists`. -/
  | validate
  /-- `GET history/get-history` issued by `fetch_chat_history_for_validated_user`. -/
  | histLoad
  /-- `GET report/monthly` issued by `fetch_user_specific_expense_data`. -/
  | reportFetch
  /-- `POST history/create-history` issued by `validate_and_send_to_history`. -/
  | histCreate
  /-- The OpenAI chat-completion call issued by `chat`. -/
  | completion
deriving DecidableEq

/-- Body of a `history/get-history` response, as seen after `json()`. -/
inductive HistBody where
  /-- `json()` raises `JSONDecodeError`. -/
  | malformed
  /-- Valid JSON that is not a list (e.g. an object). -/
  | nonList
  /-- A JSON list of history entries (possibly empty). -/
  | jlist (entries : List HistEntry)
deriving DecidableEq

/-- Body of a `report/monthly` response, as seen after `json()`. -/
inductive ReportBody where
  /-- `json()` raises `JSONDecodeError`. -/
  | malformed
  /-- Valid JSON that is not a dict. -/
  | nonDict
  /-- A JSON object (the report). -/
  | jdict (d : ExpenseData)
deriving DecidableEq

/-- An HTTP exchange outcome: either the request raises (network failure,
timeout), or a response with a status code and a body arrives. -/
inductive HttpResp (β : Type) where
  | netFail
  | resp (status : ℕ) (body : β)
deriving DecidableEq

/-- Outcome of the completion-provider call. -/
inductive CompletionResult where
  /-- The provider returned a completion text. -/
  | ok (text : String)
  /-- The provider raised an exception with message `msg`. -/
  | exn (msg : String)
deriving DecidableEq

/-- Fixed responses of the external collaborators during one turn. -/
structure Env where
  histResp : HttpResp HistBody
  reportResp : HttpResp ReportBody
  createResp : HttpResp Unit
  completion : CompletionResult

/-! ## `app.core.utils` -/

/-- `validate_user_exists`: empty or whitespace-only identifier fails
without any request; otherwise one `GET history/get-history` is issued and
only a 200 with a list body validates, returning the stripped identifier.
A 404, a 400, any other status, malformed JSON, a non-list body and a
network failure all return `(False, "")`. -/
def validate_user_exists (user_id : String) (env : Env) : (Bool × String) × List Req :=
  if user_id = "" ∨ pyStrip user_id = "" then ((false, ""), [])
  else
    match env.histResp with
    | .netFail => ((false, ""), [Req.validate])
    | .resp status body =>
      ( if status = 200 then
          match body with
          | .jlist _ => (true, pyStrip user_id)
          | _ => (false, "")
        else (false, "")   -- the 404, 400 and catch-all branches all fail
      , [Req.validate])

/-- `fetch_chat_history_for_validated_user`: one request, result is the
list body on a 200 with a list, and `[]` in every other case (non-200,
malformed JSON, non-list body, network failure). -/
def fetch_chat_history_for_validated_user (user_id : String) (env : Env) :
    List HistEntry × List Req :=
  ( match env.histResp with
    | .netFail => []
    | .resp status body =>
      if status = 200 then
        match body with
        | .jlist l => l
        | _ => []       -- JSONDecodeError and non-list fall through to []
      else []
  , [Req.histLoad])

/-- `fetch_user_specific_expense_data`: after its own fresh validation, one
`GET report/monthly`; only a 200 whose body is a truthy dict yields data. -/
def fetch_user_specific_expense_data (user_id : String) (env : Env) :
    Option ExpenseData × List Req :=
  if user_id = "" ∨ pyStrip user_id = "" then (none, [])
  else
    let v := validate_user_exists (pyStrip user_id) env
    if v.1.1 = false then (none, v.2)
    else
      ( match env.reportResp with
        | .netFail => none
        | .resp status body =>
          if status = 200 then
            match body with
            | .jdict d => if dictNonEmpty d then some d else none
            | _ => none   -- JSONDecodeError, and data that is not a dict
          else none       -- 404 and the catch-all status branch
      , v.2 ++ [Req.reportFetch])

/-- `validate_and_send_to_history`: falsy message, response or identifier
fails with no request at all; then a fresh validation; only on success is
the `POST history/create-history` issued, succeeding on a 200 or a 201. -/
def validate_and_send_to_history (user_message assistant_response user_id : String)
    (env : Env) : Bool × List Req :=
  if user_message = "" ∨ assistant_response = "" ∨ user_id = "" ∨ pyStrip user_id = ""
  then (false, [])
  else
    let v := validate_user_exists (pyStrip user_id) env
    if v.1.1 = false then (false, v.2)
    else
      ( match env.createResp with
        | .netFail => false
        | .resp status _ => status == 200 || status == 201
      , v.2 ++ [Req.histCreate])

/-! ## `SimpleExpenseRAG` orchestration -/

/-- `SimpleExpenseRAG.load_user_chat_history`: raises `ValueError` (modelled
as `Except.error` carrying the message) on a blank identifier or a failed
validation; otherwise loads the history into the state and returns the
validated identifier.  The fetch itself never raises, so the inner
`except` branch of the source is unreachable. -/
def load_user_chat_history (user_id : String) (st : SessState) (env : Env) :
    (Except String String × SessState) × List Req :=
  if user_id = "" ∨ pyStrip user_id = "" then
    ((Except.error "Invalid user_id: User ID cannot be empty", st), [])
  else
    let v := validate_user_exists (pyStrip user_id) env
    if v.1.1 = false then
      ((Except.error ("Invalid user_id: " ++ user_id ++ ". User not found."), st), v.2)
    else
      let f := fetch_chat_history_for_validated_user v.1.2 env
      ((Except.ok v.1.2, { st with chat_history := f.1 }), v.2 ++ f.2)

/-- The in-session memory update of a successful turn: append the new
exchange and keep only the last 5 entries. -/
def memPush (conv : List (String × String)) (x : String × String) :
    List (String × String) :=
  let c := conv ++ [x]
  if 5 < c.length then c.drop (c.length - 5) else c

/-- The tail of `SimpleExpenseRAG.chat` shared by both identifier branches:
build the context and the prompt, call the completion provider once, and on
success append the turn to the in-session memory, truncating it to the last
5 entries; a provider exception becomes a normal return whose text wraps
the exception message. -/
def chat_completion (user_query vuid : String) (st : SessState) (env : Env) :
    (Except String (String × String) × SessState) × List Req :=
  let _ctx := build_context st
  match env.completion with
  | .ok text =>
    ((Except.ok (text, vuid),
      { st with current_conversation := memPush st.current_conversation (user_query, text) }),
     [Req.completion])
  | .exn msg =>
    ((Except.ok ("Error generating response: " ++ msg, vuid), st), [Req.completion])

/-- `SimpleExpenseRAG.chat`: with a truthy identifier, a blank strip raises
`ValueError`; otherwise the user history is validated and loaded, and the
turn proceeds to the completion step.  A falsy identifier clears the
history and proceeds with an empty validated identifier. -/
def chat (user_query user_id : String) (st : SessState) (env : Env) :
    (Except String (String × String) × SessState) × List Req :=
  if user_id ≠ "" then
    if pyStrip user_id = "" then
      ((Except.error "Invalid user_id: User ID cannot be empty", st), [])
    else
      let lr := load_user_chat_history (pyStrip user_id) st env
      match lr.1.1 with
      | .error e => ((Except.error e, lr.1.2), lr.2)
      | .ok vuid =>
        let c := chat_completion user_query vuid lr.1.2 env
        (c.1, lr.2 ++ c.2)
  else
    let c := chat_completion user_query "" { st with chat_history := [] } env
    (c.1, c.2)

/-! ## `app.routes.chat` -/

/-- The HTTP error outcomes the route can raise. -/
inductive HttpError where
  | badRequest (detail : String)
  | notFound (detail : String)
  | internal (detail : String)
deriving DecidableEq

/-- The greeting test of the route:
`any(greeting in request.message.lower() for greeting in [hi, hello, hey])`. -/
def isGreeting (message : String) : Bool :=
  strContains (pyLower message) "hi" ||
  strContains (pyLower message) "hello" ||
  strContains (pyLower message) "hey"

/-- One run of the `chat_with_teddy` route handler over the session state of
the cached per-user instance: input validation, record fetch and
summarisation, the chat turn, and the conditional persistence of the turn.
Returns the response (or the HTTP error raised), the updated session state
and the full request trace. -/
def chat_with_teddy (message user_id : String) (st : SessState) (env : Env) :
    Except HttpError (String × SessState) × List Req :=
  if message = "" ∨ pyStrip message = "" then
    (Except.error (HttpError.badRequest "Message is required and cannot be empty"), [])
  else if user_id = "" ∨ pyStrip user_id = "" then
    (Except.error (HttpError.badRequest "User ID is required and cannot be empty"), [])
  else
    let fd := fetch_user_specific_expense_data (pyStrip user_id) env
    let st1 := set_expense_data st fd.1
    let c := chat (pyStrip message) (pyStrip user_id) st1 env
    match c.1.1 with
    | .error e =>
      ( Except.error
          (if strContains e "Invalid user_id" || strContains e "User not found"
           then HttpError.notFound ("Unable to fetch chat data. " ++ e)
           else HttpError.badRequest e)
      , fd.2 ++ c.2)
    | .ok rv =>
      if rv.1 = "" then
        (Except.error (HttpError.internal "No response from assistant"), fd.2 ++ c.2)
      else if rv.2 ≠ "" ∧ isGreeting message = false then
        let p := validate_and_send_to_history (pyStrip message) rv.1 rv.2 env
        (Except.ok (rv.1, c.1.2), fd.2 ++ c.2 ++ p.2)
      else
        (Except.ok (rv.1, c.1.2), fd.2 ++ c.2)

/-! ## Session cache (`user_rag_cache`)

The cache is modelled by its key list in insertion order; the sessions
behind the keys play no role in the eviction policy. -/

def MAX_CACHE_SIZE : ℕ := 100

/-- `int(len(user_rag_cache) * 0.2)`: the length is converted to a double,
multiplied by the double nearest `0.2`, and truncated. -/
def evictCount (n : ℕ) : ℕ :=
  (F.toIntTrunc (fmul (F.ofNat n) (roundFrac 1 5))).toNat

/-- `cleanup_rag_cache`: when the size exceeds `MAX_CACHE_SIZE`, delete the
oldest 20% of entries (by insertion order); otherwise do nothing. -/
def cleanup_rag_cache (cache : List String) : List String :=
  if MAX_CACHE_SIZE < cache.length then cache.drop (evictCount cache.length)
  else cache

/-- The cache manipulation of one request in `chat_with_teddy`: cleanup is
invoked when the size already exceeds the maximum, then the identifier is
inserted if absent. -/
def cacheStep (cache : List String) (user_id_key : String) : List String :=
  let c1 := if MAX_CACHE_SIZE < cache.length then cleanup_rag_cache cache else cache
  if user_id_key ∈ c1 then c1 else c1 ++ [user_id_key]

/-- A sequence of get-or-create operations starting from the empty cache. -/
def runCache (ops : List String) : List String := ops.foldl cacheStep []

/-! ## Helper lemmas -/

theorem isPrefixOf_self (l : List Char) : l.isPrefixOf l = true := by
  induction l with
  | nil => rfl
  | cons a t ih => simp [List.isPrefixOf, ih]

theorem listContains_append_self (n pre : List Char) :
    listContains n (pre ++ n) = true := by
  induction pre with
  | nil =>
    cases n with
    | nil => rfl
    | cons a t => simp [listContains, isPrefixOf_self]
  | cons b bs ih => simp [listContains, ih]

/-- A string contains every suffix of itself. -/
theorem strContains_append (p s : String) : strContains (p ++ s) s = true := by
  have hd : (p ++ s).data = p.data ++ s.data := rfl
  rw [strContains, hd]
  exact listContains_append_self s.data p.data

/-! ## C5: identity-validator contract -/

/-- C5: `validate_user_exists` returns `(True, stripped identifier)` exactly
when the identifier is not blank and the history endpoint answers 200 with a
list body (an empty list included); in every other case — blank identifier,
404, 400, any other status, malformed JSON, non-list 200 body, network
failure — it returns `(False, "")`. -/
theorem validate_user_exists_contract (user_id : String) (env : Env) :
    ((validate_user_exists user_id env).1 = (true, pyStrip user_id) ↔
      (pyStrip user_id ≠ "" ∧ ∃ l, env.histResp = HttpResp.resp 200 (HistBody.jlist l))) ∧
    ((pyStrip user_id = "" ∨ ∀ l, env.histResp ≠ HttpResp.resp 200 (HistBody.jlist l)) →
      (validate_user_exists user_id env).1 = (false, "")) := by
  unfold validate_user_exists
  by_cases h0 : user_id = "" ∨ pyStrip user_id = ""
  · rw [if_pos h0]
    constructor
    · constructor
      · intro he
        simp at he
      · rintro ⟨hne, l, hl⟩
        rcases h0 with h | h
        · exact absurd (by rw [h]; rfl) hne
        · exact absurd h hne
    · intro _; rfl
  · rw [if_neg h0]
    push_neg at h0
    cases henv : env.histResp with
    | netFail =>
      constructor
      · simp
      · intro _; rfl
    | resp status body =>
      by_cases hs : status = 200
      · subst hs
        cases body with
        | jlist l =>
          constructor
          · constructor
            · intro _
              exact ⟨h0.2, l, rfl⟩
            · intro _
              simp
          · rintro (h | h)
            · exact absurd h h0.2
            · exact absurd rfl (h l)
        | malformed =>
          constructor
          · simp
          · intro _; simp
        | nonList =>
          constructor
          · simp
          · intro _; simp
      · constructor
        · simp [hs]
        · intro _
          simp [hs]

/-- C5 witness: a whitespace-only identifier is rejected with `(False, "")`
even when the store would answer 200 with a list. -/
theorem validate_user_exists_contract_witness :
    (validate_user_exists "  "
      { histResp := .resp 200 (.jlist []), reportResp := .netFail,
        createResp := .netFail, completion := .ok "x" }).1 = (false, "") :=
  (validate_user_exists_contract "  "
    { histResp := .resp 200 (.jlist []), reportResp := .netFail,
      createResp := .netFail, completion := .ok "x" }).2 (Or.inl (by decide))

/-! ## C6: history loader absorbs every failure -/

/-- C6: `fetch_chat_history_for_validated_user` is total (the embedding
returns a plain list, mirroring the try/except that swallows every
exception): it returns the body on a 200 with a list, and the empty list on
a network failure or timeout, any non-200 status, malformed JSON, or a
non-list 200 body. -/
theorem fetch_chat_history_contract (user_id : String) (env : Env) :
    (∀ l, env.histResp = HttpResp.resp 200 (HistBody.jlist l) →
      (fetch_chat_history_for_validated_user user_id env).1 = l) ∧
    ((∀ l, env.histResp ≠ HttpResp.resp 200 (HistBody.jlist l)) →
      (fetch_chat_history_for_validated_user user_id env).1 = []) := by
  unfold fetch_chat_history_for_validated_user
  constructor
  · intro l hl
    rw [hl]
    simp
  · intro hfail
    cases henv : env.histResp with
    | netFail => rfl
    | resp status body =>
      by_cases hs : status = 200
      · subst hs
        cases body with
        | jlist l => exact absurd henv (hfail l)
        | malformed => simp
        | nonList => simp
      · simp [hs]

/-- C6 witness: a 500 answer yields the empty history. -/
theorem fetch_chat_history_contract_witness :
    (fetch_chat_history_for_validated_user "u1"
      { histResp := .resp 500 .malformed, reportResp := .netFail,
        createResp := .netFail, completion := .ok "x" }).1 = [] :=
  (fetch_chat_history_contract "u1"
    { histResp := .resp 500 .malformed, reportResp := .netFail,
      createResp := .netFail, completion := .ok "x" }).2 (by intro l h; cases h)

/-! ## C9: record fetch yields a report only for a truthy dict body -/

/-- The report object with no keys at all: `{}`. -/
def emptyReport : ExpenseData :=
  { daily := none, weekly := none, monthly := none, extraKeys := false }

/-- C9: `fetch_user_specific_expense_data` returns `some d` exactly when
the identifier is not blank, its fresh validation succeeds, and the record
store answers 200 with the dict body `d` that is truthy (non-empty); in
particular a 200 whose body is the empty object `{}` yields `none`, like
every documented failure case. -/
theorem fetch_expense_data_contract (user_id : String) (env : Env) :
    (∀ d, (fetch_user_specific_expense_data user_id env).1 = some d ↔
       (pyStrip user_id ≠ "" ∧
        (validate_user_exists (pyStrip user_id) env).1.1 = true ∧
        env.reportResp = HttpResp.resp 200 (ReportBody.jdict d) ∧
        dictNonEmpty d = true)) ∧
    (env.reportResp = HttpResp.resp 200 (ReportBody.jdict emptyReport) →
      (fetch_user_specific_expense_data user_id env).1 = none) := by
  unfold fetch_user_specific_expense_data
  by_cases h0 : pyStrip user_id = ""
  · rw [if_pos (Or.inr h0)]
    constructor
    · intro d
      simp [h0]
    · intro _; rfl
  · have hg : ¬(user_id = "" ∨ pyStrip user_id = "") := by
      rintro (h | h)
      · exact h0 (by rw [h]; rfl)
      · exact h0 h
    rw [if_neg hg]
    by_cases hv : (validate_user_exists (pyStrip user_id) env).1.1 = false
    · rw [if_pos hv]
      constructor
      · intro d
        simp [hv]
      · intro _; rfl
    · rw [if_neg hv]
      have hv1 : (validate_user_exists (pyStrip user_id) env).1.1 = true := by
        cases hq : (validate_user_exists (pyStrip user_id) env).1.1
        · exact absurd hq hv
        · rfl
      cases hr : env.reportResp with
      | netFail =>
        constructor
        · intro d; simp
        · intro hcon; cases hcon
      | resp status body =>
        by_cases hs : status = 200
        · subst hs
          cases body with
          | malformed =>
            constructor
            · intro d; simp
            · intro hcon; cases hcon
          | nonDict =>
            constructor
            · intro d; simp
            · intro hcon; cases hcon
          | jdict dd =>
            by_cases hdd : dictNonEmpty dd = true
            · constructor
              · intro d
                simp only [if_pos hdd]
                constructor
                · intro hsome
                  cases hsome
                  exact ⟨h0, hv1, rfl, hdd⟩
                · rintro ⟨-, -, hbody, -⟩
                  cases hbody
                  rfl
              · intro hcon
                cases hcon
                exact absurd hdd (by decide)
            · constructor
              · intro d
                simp only [if_neg hdd]
                constructor
                · intro hsome; cases hsome
                · rintro ⟨-, -, hbody, hd⟩
                  cases hbody
                  exact absurd hd hdd
              · intro hcon
                cases hcon
                exact (show (if dictNonEmpty emptyReport = true
                    then some emptyReport else none : Option ExpenseData) = none
                  from if_neg hdd)
        · constructor
          · intro d
            simp [hs]
          · intro hcon
            cases hcon
            exact absurd rfl hs

/-- C9 witness: a validated identifier with a 200 `{}` report body gets no
record data. -/
theorem fetch_expense_data_contract_witness :
    (fetch_user_specific_expense_data "u1"
      { histResp := .resp 200 (.jlist []), reportResp := .resp 200 (.jdict emptyReport),
        createResp := .netFail, completion := .ok "x" }).1 = none :=
  (fetch_expense_data_contract "u1"
    { histResp := .resp 200 (.jlist []), reportResp := .resp 200 (.jdict emptyReport),
      createResp := .netFail, completion := .ok "x" }).2 rfl

/-! ## C10: persistence re-validates and never writes on failure -/

/-- The validator issues at most its single request. -/
theorem validate_user_exists_trace (user_id : String) (env : Env) :
    (validate_user_exists user_id env).2 = [] ∨
    (validate_user_exists user_id env).2 = [Req.validate] := by
  unfold validate_user_exists
  by_cases h0 : user_id = "" ∨ pyStrip user_id = ""
  · rw [if_pos h0]; exact Or.inl rfl
  · rw [if_neg h0]
    cases env.histResp with
    | netFail => exact Or.inr rfl
    | resp status body => exact Or.inr rfl

/-- C10: `validate_and_send_to_history` returns `False` with no request at
all when the message, the response or the identifier is empty; it performs
its own fresh validation first, and when that validation fails it returns
`False` without issuing the write; the write request is issued exactly
after a successful validation. -/
theorem validate_and_send_contract (m a uid : String) (env : Env) :
    ((m = "" ∨ a = "" ∨ pyStrip uid = "") →
       validate_and_send_to_history m a uid env = (false, [])) ∧
    ((validate_user_exists (pyStrip uid) env).1.1 = false →
       (validate_and_send_to_history m a uid env).1 = false ∧
       Req.histCreate ∉ (validate_and_send_to_history m a uid env).2) ∧
    (m ≠ "" → a ≠ "" → pyStrip uid ≠ "" →
       (validate_and_send_to_history m a uid env).2 =
         (validate_user_exists (pyStrip uid) env).2 ++
           (if (validate_user_exists (pyStrip uid) env).1.1 = true
            then [Req.histCreate] else [])) := by
  refine ⟨?_, ?_, ?_⟩
  · rintro (h | h | h)
    · unfold validate_and_send_to_history
      rw [if_pos (Or.inl h)]
    · unfold validate_and_send_to_history
      rw [if_pos (Or.inr (Or.inl h))]
    · unfold validate_and_send_to_history
      rw [if_pos (Or.inr (Or.inr (Or.inr h)))]
  · intro hv
    unfold validate_and_send_to_history
    by_cases hg : m = "" ∨ a = "" ∨ uid = "" ∨ pyStrip uid = ""
    · rw [if_pos hg]
      exact ⟨rfl, by simp⟩
    · rw [if_neg hg]
      rw [if_pos hv]
      refine ⟨rfl, ?_⟩
      rcases validate_user_exists_trace (pyStrip uid) env with h | h <;> simp [h]
  · intro hm ha hu
    unfold validate_and_send_to_history
    have hg : ¬(m = "" ∨ a = "" ∨ uid = "" ∨ pyStrip uid = "") := by
      rintro (h | h | h | h)
      · exact hm h
      · exact ha h
      · exact hu (by rw [h]; rfl)
      · exact hu h
    rw [if_neg hg]
    by_cases hv : (validate_user_exists (pyStrip uid) env).1.1 = false
    · rw [if_pos hv, if_neg (by simp [hv]), List.append_nil]
    · rw [if_neg hv]
      have hv1 : (validate_user_exists (pyStrip uid) env).1.1 = true := by
        cases hq : (validate_user_exists (pyStrip uid) env).1.1
        · exact absurd hq hv
        · rfl
      rw [if_pos hv1]

/-- C10 witness: an empty message writes nothing; a failed validation
writes nothing; with all fields present the write follows one fresh
validation request. -/
theorem validate_and_send_contract_witness :
    validate_and_send_to_history "" "a" "u1"
        { histResp := .resp 200 (.jlist []), reportResp := .netFail,
          createResp := .resp 200 (), completion := .ok "x" } = (false, []) ∧
    (validate_and_send_to_history "q" "a" "ghost"
        { histResp := .resp 404 .malformed, reportResp := .netFail,
          createResp := .resp 200 (), completion := .ok "x" }).1 = false ∧
    (validate_and_send_to_history "q" "a" "u1"
        { histResp := .resp 200 (.jlist []), reportResp := .netFail,
          createResp := .resp 200 (), completion := .ok "x" }).2 =
      [Req.validate, Req.histCreate] := by
  refine ⟨?_, ?_, ?_⟩
  · exact (validate_and_send_contract "" "a" "u1" _).1 (Or.inl rfl)
  · exact ((validate_and_send_contract "q" "a" "ghost"
      { histResp := .resp 404 .malformed, reportResp := .netFail,
        createResp := .resp 200 (), completion := .ok "x" }).2.1 (by decide)).1
  · have h := (validate_and_send_contract "q" "a" "u1"
      { histResp := .resp 200 (.jlist []), reportResp := .netFail,
        createResp := .resp 200 (), completion := .ok "x" }).2.2
      (by decide) (by decide) (by decide)
    rw [h]
    decide

/-! ## Lemmas about one turn -/

/-- With a 200-list history response and a non-blank identifier the
validator succeeds. -/
theorem validate_ok {env : Env} {h : List HistEntry}
    (hh : env.histResp = HttpResp.resp 200 (HistBody.jlist h))
    (uid : String) (hu : pyStrip uid ≠ "") :
    validate_user_exists uid env = ((true, pyStrip uid), [Req.validate]) := by
  unfold validate_user_exists
  rw [if_neg (by rintro (h1 | h1); exacts [hu (by rw [h1]; rfl), hu h1]), hh]
  simp

/-- With a 200-list history response the loader returns the body. -/
theorem fetchHist_ok {env : Env} {h : List HistEntry}
    (hh : env.histResp = HttpResp.resp 200 (HistBody.jlist h)) (uid : String) :
    fetch_chat_history_for_validated_user uid env = (h, [Req.histLoad]) := by
  unfold fetch_chat_history_for_validated_user
  rw [hh]
  simp

/-- A successful history load stores the fetched history and returns the
canonical identifier. -/
theorem loadHist_ok {env : Env} {h : List HistEntry}
    (hh : env.histResp = HttpResp.resp 200 (HistBody.jlist h))
    (uid : String) (st : SessState) (hu : pyStrip uid ≠ "") :
    load_user_chat_history uid st env =
      ((Except.ok (pyStrip uid), { st with chat_history := h }),
       [Req.validate, Req.histLoad]) := by
  have hv := validate_ok hh (pyStrip uid) (by rw [pyStrip_idem]; exact hu)
  rw [pyStrip_idem] at hv
  unfold load_user_chat_history
  rw [if_neg (by rintro (h1 | h1); exacts [hu (by rw [h1]; rfl), hu h1]), hv]
  simp [fetchHist_ok hh (pyStrip uid)]

/-- A turn whose completion succeeds: the history is refreshed, the memory
is pushed, and the completion text together with the canonical identifier
is returned. -/
theorem chat_ok {env : Env} {h : List HistEntry} {text : String}
    (hh : env.histResp = HttpResp.resp 200 (HistBody.jlist h))
    (hc : env.completion = CompletionResult.ok text)
    (q uid : String) (st : SessState) (hu : pyStrip uid ≠ "") :
    chat q uid st env =
      ((Except.ok (text, pyStrip uid),
        { st with chat_history := h,
                  current_conversation := memPush st.current_conversation (q, text) }),
       [Req.validate, Req.histLoad, Req.completion]) := by
  have hl := loadHist_ok hh (pyStrip uid) st (by rw [pyStrip_idem]; exact hu)
  rw [pyStrip_idem] at hl
  unfold chat
  rw [if_pos (pyStrip_ne_empty hu), if_neg hu, hl]
  unfold chat_completion
  rw [hc]
  simp

/-- A turn whose completion raises: nothing is appended to the memory, the
history is still refreshed, and the error text together with the canonical
identifier is returned as a normal result. -/
theorem chat_exn {env : Env} {h : List HistEntry} {msg : String}
    (hh : env.histResp = HttpResp.resp 200 (HistBody.jlist h))
    (hc : env.completion = CompletionResult.exn msg)
    (q uid : String) (st : SessState) (hu : pyStrip uid ≠ "") :
    chat q uid st env =
      ((Except.ok ("Error generating response: " ++ msg, pyStrip uid),
        { st with chat_history := h }),
       [Req.validate, Req.histLoad, Req.completion]) := by
  have hl := loadHist_ok hh (pyStrip uid) st (by rw [pyStrip_idem]; exact hu)
  rw [pyStrip_idem] at hl
  unfold chat
  rw [if_pos (pyStrip_ne_empty hu), if_neg hu, hl]
  unfold chat_completion
  rw [hc]
  simp

/-! ## C7: provider failures are downgraded to normal turns -/

/-- C7: when validation has succeeded and the completion provider raises
with message `msg`, `chat` still returns normally (no exception escapes):
the assistant text is an error description containing `msg`, and the
canonical identifier is returned alongside it. -/
theorem chat_provider_failure (q uid : String) (st : SessState) (env : Env)
    (h : List HistEntry) (msg : String)
    (hh : env.histResp = HttpResp.resp 200 (HistBody.jlist h))
    (hc : env.completion = CompletionResult.exn msg)
    (hu : pyStrip uid ≠ "") :
    (chat q uid st env).1.1 =
      Except.ok ("Error generating response: " ++ msg, pyStrip uid) ∧
    strContains ("Error generating response: " ++ msg) msg = true := by
  refine ⟨?_, strContains_append "Error generating response: " msg⟩
  rw [chat_exn hh hc q uid st hu]

/-- An environment whose provider raises. -/
def exnEnv : Env :=
  { histResp := .resp 200 (.jlist []), reportResp := .netFail,
    createResp := .netFail, completion := .exn "boom" }

/-- C7 witness: concrete provider failure still yields a normal result
carrying the message and the canonical identifier. -/
theorem chat_provider_failure_witness :
    (chat "what" "u1" freshSession exnEnv).1.1 =
      Except.ok ("Error generating response: " ++ "boom", "u1") ∧
    strContains ("Error generating response: " ++ "boom") "boom" = true := by
  have h := chat_provider_failure "what" "u1" freshSession exnEnv [] "boom"
    rfl rfl (by decide)
  rwa [show pyStrip "u1" = "u1" by decide] at h

/-! ## C3: external calls per turn -/

/-- The record fetch of a turn with successful validation issues exactly
the validation request followed by the report request, whatever the record
store answers. -/
theorem fetchData_trace {env : Env} {h : List HistEntry}
    (hh : env.histResp = HttpResp.resp 200 (HistBody.jlist h))
    (uid : String) (hu : pyStrip uid ≠ "") :
    (fetch_user_specific_expense_data uid env).2 =
      [Req.validate, Req.reportFetch] := by
  have hv := validate_ok hh (pyStrip uid) (by rw [pyStrip_idem]; exact hu)
  rw [pyStrip_idem] at hv
  unfold fetch_user_specific_expense_data
  rw [if_neg (by rintro (h1 | h1); exacts [hu (by rw [h1]; rfl), hu h1]), hv]
  cases env.reportResp <;> simp

/-- The persist step with non-empty fields issues exactly the fresh
validation request followed by the create request, whatever the store
answers to the write. -/
theorem persist_trace {env : Env} {h : List HistEntry}
    (hh : env.histResp = HttpResp.resp 200 (HistBody.jlist h))
    (m a uid : String) (hm : m ≠ "") (ha : a ≠ "") (hu : pyStrip uid ≠ "") :
    (validate_and_send_to_history m a uid env).2 =
      [Req.validate, Req.histCreate] := by
  have hv := validate_ok hh (pyStrip uid) (by rw [pyStrip_idem]; exact hu)
  rw [pyStrip_idem] at hv
  unfold validate_and_send_to_history
  rw [if_neg (by
    rintro (h1 | h1 | h1 | h1)
    exacts [hm h1, ha h1, hu (by rw [h1]; rfl), hu h1]), hv]
  cases env.createResp <;> simp

/-- C3 (amended): in a turn that validates, completes and persists, the
history load, the record fetch, the history write and the completion are
each attempted exactly once and nothing is retried, but the
identity-existence check against the history endpoint is issued three
times — before the record fetch, before the history load, and before the
persist — not once. -/
theorem chat_turn_calls (message user_id : String) (st : SessState) (env : Env)
    (h : List HistEntry) (text : String)
    (hh : env.histResp = HttpResp.resp 200 (HistBody.jlist h))
    (hc : env.completion = CompletionResult.ok text)
    (ht : text ≠ "")
    (hm : pyStrip message ≠ "") (hu : pyStrip user_id ≠ "")
    (hg : isGreeting message = false) :
    (chat_with_teddy message user_id st env).2 =
      [Req.validate, Req.reportFetch, Req.validate, Req.histLoad, Req.completion,
       Req.validate, Req.histCreate] ∧
    (chat_with_teddy message user_id st env).2.count Req.validate = 3 ∧
    (chat_with_teddy message user_id st env).2.count Req.histLoad = 1 ∧
    (chat_with_teddy message user_id st env).2.count Req.reportFetch = 1 ∧
    (chat_with_teddy message user_id st env).2.count Req.histCreate = 1 ∧
    (chat_with_teddy message user_id st env).2.count Req.completion = 1 := by
  have htrace : (chat_with_teddy message user_id st env).2 =
      [Req.validate, Req.reportFetch, Req.validate, Req.histLoad, Req.completion,
       Req.validate, Req.histCreate] := by
    have hcc := chat_ok hh hc (pyStrip message) (pyStrip user_id)
      (set_expense_data st (fetch_user_specific_expense_data (pyStrip user_id) env).1)
      (by rw [pyStrip_idem]; exact hu)
    rw [pyStrip_idem] at hcc
    have hp := persist_trace hh (pyStrip message) text (pyStrip user_id)
      hm ht (by rw [pyStrip_idem]; exact hu)
    unfold chat_with_teddy
    rw [if_neg (by rintro (h1 | h1); exacts [hm (by rw [h1]; rfl), hm h1]),
      if_neg (by rintro (h1 | h1); exacts [hu (by rw [h1]; rfl), hu h1])]
    simp [hcc, hp, fetchData_trace hh (pyStrip user_id) (by rw [pyStrip_idem]; exact hu),
      ht, hg, hu]
  refine ⟨htrace, ?_, ?_, ?_, ?_, ?_⟩ <;> rw [htrace] <;> decide

/-- A fully successful environment: a known user with empty history, one
daily record, a 201 on the write, and a successful completion. -/
def okEnv : Env :=
  { histResp := .resp 200 (.jlist [])
  , reportResp := .resp 200 (.jdict
      { daily := some [{ id := "2024-01-01", transactions :=
          [{ transactionType := "expense", amount := F.ofNat 50,
             description := some "groceries" }] }]
      , weekly := none, monthly := none, extraKeys := false })
  , createResp := .resp 201 ()
  , completion := .ok "You spent 50 dollars." }

/-- C3 counterexample: in a concrete fully successful turn the
identity-existence check against the history endpoint is issued three
times, not exactly once as claimed. -/
theorem chat_turn_validate_count_cex :
    (chat_with_teddy "what did I spend?" "u1" freshSession okEnv).2.count Req.validate = 3 ∧
    ¬ (chat_with_teddy "what did I spend?" "u1" freshSession okEnv).2.count Req.validate = 1 := by
  decide

/-- C3 witness: the amended count theorem applied to the concrete
successful turn. -/
theorem chat_turn_calls_witness :
    (chat_with_teddy "what did I spend?" "u1" freshSession okEnv).2 =
      [Req.validate, Req.reportFetch, Req.validate, Req.histLoad, Req.completion,
       Req.validate, Req.histCreate] :=
  (chat_turn_calls "what did I spend?" "u1" freshSession okEnv [] "You spent 50 dollars."
    rfl rfl (by decide) (by decide) (by decide) (by decide)).1

/-! ## C4: in-session memory bound -/

/-- The environment of a turn driven only by the history endpoint and the
completion text (the record store plays no role inside `chat`). -/
def chatEnv (h : List HistEntry) (text : String) : Env :=
  { histResp := .resp 200 (.jlist h), reportResp := .netFail,
    createResp := .netFail, completion := .ok text }

/-- Iterate `chat` over a list of `(query, completion text)` turns,
keeping the session state. -/
def chatIter (uid : String) (h : List HistEntry)
    (turns : List (String × String)) (st : SessState) : SessState :=
  turns.foldl (fun s qt => (chat qt.1 uid s (chatEnv h qt.2)).1.2) st

/-- Iterated successful turns evolve the in-session memory by folding
`memPush`. -/
theorem chatIter_conv (uid : String) (h : List HistEntry) (hu : pyStrip uid ≠ "") :
    ∀ (turns : List (String × String)) (st : SessState),
      (chatIter uid h turns st).current_conversation =
        turns.foldl memPush st.current_conversation := by
  intro turns
  induction turns with
  | nil => intro st; rfl
  | cons t ts ih =>
    intro st
    unfold chatIter
    rw [List.foldl_cons, List.foldl_cons,
      @chat_ok (chatEnv h t.2) h t.2 rfl rfl t.1 uid st hu]
    exact ih _

/-- One push never grows a bounded memory beyond 5. -/
theorem memPush_length_le (c : List (String × String)) (x : String × String)
    (hc : c.length ≤ 5) : (memPush c x).length ≤ 5 := by
  unfold memPush
  by_cases hl : 5 < (c ++ [x]).length
  · rw [if_pos hl, List.length_drop]
    simp only [List.length_append, List.length_cons, List.length_nil] at hl ⊢
    omega
  · rw [if_neg hl]
    simp only [List.length_append, List.length_cons, List.length_nil] at hl ⊢
    omega

theorem foldl_memPush_le (turns : List (String × String)) :
    ∀ c : List (String × String), c.length ≤ 5 →
      (List.foldl memPush c turns).length ≤ 5 := by
  induction turns with
  | nil => intro c hc; simpa using hc
  | cons t ts ih =>
    intro c hc
    rw [List.foldl_cons]
    exact ih _ (memPush_length_le c t hc)

/-- C4: starting from a fresh session, the in-session memory never holds
more than 5 turns, and after exactly 6 successful turns it holds exactly
the most recent 5 in order — the first turn has been dropped and the
newest is last. -/
theorem session_memory_bound (uid : String) (h : List HistEntry)
    (turns : List (String × String)) (hu : pyStrip uid ≠ "") :
    (chatIter uid h turns freshSession).current_conversation.length ≤ 5 ∧
    ∀ t1 t2 t3 t4 t5 t6 : String × String,
      (chatIter uid h [t1, t2, t3, t4, t5, t6] freshSession).current_conversation
        = [t2, t3, t4, t5, t6] := by
  constructor
  · rw [chatIter_conv uid h hu]
    exact foldl_memPush_le turns [] (by simp)
  · intro t1 t2 t3 t4 t5 t6
    rw [chatIter_conv uid h hu]
    rfl

/-- C4 witness: six concrete turns leave exactly the last five, in order. -/
theorem session_memory_bound_witness :
    (chatIter "u1" []
        [("q1", "r1"), ("q2", "r2"), ("q3", "r3"), ("q4", "r4"), ("q5", "r5"), ("q6", "r6")]
        freshSession).current_conversation
      = [("q2", "r2"), ("q3", "r3"), ("q4", "r4"), ("q5", "r5"), ("q6", "r6")] :=
  (session_memory_bound "u1" [] [] (by decide)).2
    ("q1", "r1") ("q2", "r2") ("q3", "r3") ("q4", "r4") ("q5", "r5") ("q6", "r6")

/-! ## C2: session-cache size and eviction -/

theorem evictCount_101 : evictCount (MAX_CACHE_SIZE + 1) = 20 := by decide

/-- One get-or-create step keeps the size within `MAX_CACHE_SIZE + 1`. -/
theorem cacheStep_length_le (c : List String) (u : String)
    (hc : c.length ≤ MAX_CACHE_SIZE + 1) :
    (cacheStep c u).length ≤ MAX_CACHE_SIZE + 1 := by
  unfold cacheStep cleanup_rag_cache
  by_cases h1 : MAX_CACHE_SIZE < c.length
  · have hc1 : c.length = MAX_CACHE_SIZE + 1 := by omega
    rw [if_pos h1, if_pos h1, hc1, evictCount_101]
    by_cases h2 : u ∈ c.drop 20
    · rw [if_pos h2]
      simp only [List.length_drop]
      omega
    · rw [if_neg h2]
      simp only [List.length_append, List.length_drop, List.length_cons, List.length_nil]
      rw [hc1]
      decide
  · rw [if_neg h1]
    by_cases h2 : u ∈ c
    · rw [if_pos h2]
      omega
    · rw [if_neg h2]
      simp only [List.length_append, List.length_cons, List.length_nil]
      omega

theorem runCache_aux_le (ops : List String) :
    ∀ c : List String, c.length ≤ MAX_CACHE_SIZE + 1 →
      (List.foldl cacheStep c ops).length ≤ MAX_CACHE_SIZE + 1 := by
  induction ops with
  | nil => intro c hc; simpa using hc
  | cons o os ih =>
    intro c hc
    rw [List.foldl_cons]
    exact ih _ (cacheStep_length_le c o hc)

/-- C2 (amended): the cache size can reach `MAX_CACHE_SIZE + 1` (101) but
never exceeds it; the cleanup runs at the start of the next request once
the size exceeds the maximum, at which point the size is exactly 101, and
it then removes exactly `int(0.2 * size) = ⌊0.2 * 101⌋ = 20` entries — the
oldest 20 by insertion order — leaving 81 ≤ 100 entries. -/
theorem cache_bound_and_eviction :
    (∀ ops : List String, (runCache ops).length ≤ MAX_CACHE_SIZE + 1) ∧
    evictCount (MAX_CACHE_SIZE + 1) = (MAX_CACHE_SIZE + 1) / 5 ∧
    (∀ cache : List String, cache.length = MAX_CACHE_SIZE + 1 →
       cleanup_rag_cache cache = cache.drop 20 ∧
       cache.take 20 ++ cleanup_rag_cache cache = cache ∧
       (cleanup_rag_cache cache).length + 20 = cache.length ∧
       (cleanup_rag_cache cache).length ≤ MAX_CACHE_SIZE) := by
  refine ⟨?_, by decide, ?_⟩
  · intro ops
    exact runCache_aux_le ops [] (by simp)
  · intro cache hlen
    have hdrop : cleanup_rag_cache cache = cache.drop 20 := by
      unfold cleanup_rag_cache
      rw [if_pos (by omega), hlen, evictCount_101]
    refine ⟨hdrop, ?_, ?_, ?_⟩
    · rw [hdrop]
      exact List.take_append_drop 20 cache
    · rw [hdrop, List.length_drop, hlen]
      decide
    · rw [hdrop, List.length_drop, hlen]
      decide

/-- C2 witness: at size exactly 101 the concrete cache of keys `k0..k100`
is cut back to its 81 newest entries. -/
theorem cache_bound_and_eviction_witness :
    (cleanup_rag_cache ((List.range (MAX_CACHE_SIZE + 1)).map (fun n => toString n))).length
        + 20 = MAX_CACHE_SIZE + 1 :=
  ((cache_bound_and_eviction.2.2
      ((List.range (MAX_CACHE_SIZE + 1)).map (fun n => toString n))
      (by simp)).2.2.1)

/-- C2 counterexample: 101 distinct identifiers drive the cache to 101
entries, exceeding the configured maximum of 100 — the claimed invariant
"size never exceeds the maximum" fails. -/
theorem cache_overflow_cex :
    MAX_CACHE_SIZE <
      (runCache ((List.range (MAX_CACHE_SIZE + 1)).map (fun n => toString n))).length := by
  decide

/-! ## C1: summariser arithmetic -/

/-- A day with two expenses of $0.10 and $0.20 (as the doubles produced by
parsing those JSON decimals). -/
def driftDay : DayRec :=
  { id := "2024-01-02", transactions :=
    [ { transactionType := "expense", amount := roundFrac 1 10, description := none }
    , { transactionType := "expense", amount := roundFrac 1 5, description := none } ] }

def driftReport : ExpenseData :=
  { daily := some [driftDay], weekly := none, monthly := none, extraKeys := false }

/-- A day with three expenses of $19.99, $0.01 and $10.00. -/
def threeDay : DayRec :=
  { id := "2024-01-01", transactions :=
    [ { transactionType := "expense", amount := roundFrac 1999 100, description := some "a" }
    , { transactionType := "expense", amount := roundFrac 1 100, description := some "b" }
    , { transactionType := "expense", amount := roundFrac 10 1, description := some "c" } ] }

def threeReport : ExpenseData :=
  { daily := some [threeDay], weekly := none, monthly := none, extraKeys := false }

/-- C1 counterexample: the summation is binary floating point, not
fixed-point decimal — the two expenses $0.10 and $0.20 produce a chunk
whose expense total is not the exact decimal sum $0.30 (it is the double
0.30000000000000004). -/
theorem summariser_decimal_drift_cex :
    (process_data driftReport).map (fun c => F.toRat c.total_expenses) ≠ [(3 : ℚ) / 10] := by
  have h : (process_data driftReport).map Chunk.total_expenses
      = [⟨5404319552844596, -54⟩] := by decide
  intro hc
  rw [show (fun c : Chunk => F.toRat c.total_expenses) = F.toRat ∘ Chunk.total_expenses
      from rfl, ← List.map_map, h] at hc
  simp only [List.map_cons, List.map_nil, List.cons.injEq, and_true] at hc
  unfold F.toRat at hc
  norm_num at hc

/-- C1 (amended): for every report, each chunk stores as `net` exactly the
floating-point difference of its two floating-point totals; the totals are
accumulated in binary64 arithmetic (not fixed-point decimal), which is
exact for the representative inputs $19.99 + $0.01 + $10.00 = $30.00 with
net exactly −$30.00, though not for all decimal inputs. -/
theorem summariser_float_totals :
    (∀ d : ExpenseData, ∀ c ∈ process_data d,
        c.net = fsub c.total_income c.total_expenses) ∧
    (process_data threeReport).map (fun c => F.toRat c.total_expenses) = [(30 : ℚ)] ∧
    (process_data threeReport).map (fun c => F.toRat c.net) = [(0 : ℚ) - 30] := by
  refine ⟨?_, ?_, ?_⟩
  · rintro d c hc
    unfold process_data at hc
    rcases List.mem_append.1 hc with h12 | h3
    · rcases List.mem_append.1 h12 with h1 | h2
      · cases hd : d.daily with
        | none => rw [hd] at h1; simp at h1
        | some days =>
          rw [hd] at h1
          obtain ⟨x, hx, rfl⟩ := List.mem_map.1 h1
          rfl
      · cases hw : d.weekly with
        | none => rw [hw] at h2; simp at h2
        | some weeks =>
          rw [hw] at h2
          obtain ⟨x, hx, rfl⟩ := List.mem_map.1 h2
          rfl
    · cases hm : d.monthly with
      | none => rw [hm] at h3; simp at h3
      | some months =>
        rw [hm] at h3
        obtain ⟨x, hx, rfl⟩ := List.mem_map.1 h3
        rfl
  · have h : (process_data threeReport).map Chunk.total_expenses
        = [⟨8444249301319680, -48⟩] := by decide
    rw [show (fun c : Chunk => F.toRat c.total_expenses) = F.toRat ∘ Chunk.total_expenses
        from rfl, ← List.map_map, h]
    simp only [List.map_cons, List.map_nil, List.cons.injEq, and_true]
    unfold F.toRat
    norm_num
  · have h : (process_data threeReport).map Chunk.net
        = [⟨-8444249301319680, -48⟩] := by decide
    rw [show (fun c : Chunk => F.toRat c.net) = F.toRat ∘ Chunk.net
        from rfl, ← List.map_map, h]
    simp only [List.map_cons, List.map_nil, List.cons.injEq, and_true]
    unfold F.toRat
    norm_num

/-- C1 witness: the first conjunct at the concrete three-expense report. -/
theorem summariser_float_totals_witness :
    (dailyChunk threeDay).net =
      fsub (dailyChunk threeDay).total_income (dailyChunk threeDay).total_expenses :=
  summariser_float_totals.1 threeReport (dailyChunk threeDay) (by decide)

/-! ## C8: context assembly -/

/-- The record-chunk section of the context: all chunks in summariser
order, each rendered in full, omitted when there are none. -/
def chunkSection (chunks : List Chunk) : List String :=
  if chunks.isEmpty then []
  else "=== ALL EXPENSE DATA ===" ::
    ((List.enumFrom 1 chunks).map
      (fun ic => "Data " ++ toString ic.1 ++ " (" ++ ic.2.ctype ++ "):\n" ++ ic.2.text))

/-- The persisted-history section of the context: the last 3 entries,
oldest to newest, with human and assistant text, omitted when the history
is empty. -/
def historySection (hist : List HistEntry) : List String :=
  if hist.isEmpty then []
  else
    "\n=== PREVIOUS CONVERSATIONS ===" ::
      ((List.enumFrom 1 (hist.drop (hist.length - 3))).map
        (fun ic => ["Previous " ++ toString ic.1 ++ ":",
                    "Human: " ++ ic.2.human.getD "",
                    "Assistant: " ++ ic.2.assistant.getD ""])).flatten

/-- The in-session-memory section of the context: all entries, oldest to
newest, omitted when the memory is empty. -/
def memorySection (conv : List (String × String)) : List String :=
  if conv.isEmpty then []
  else
    "\n=== CURRENT CONVERSATION ===" ::
      ((List.enumFrom 1 conv).map
        (fun ic => ["Exchange " ++ toString ic.1 ++ ":",
                    "Human: " ++ ic.2.1,
                    "Assistant: " ++ ic.2.2])).flatten

/-- C8: the context blob is exactly the three labelled sections in the
fixed order chunks, history, memory, joined by newlines; each section is
omitted entirely when its collection is empty; and the history section
depends only on the last 3 entries of the persisted history. -/
theorem build_context_sections (st : SessState) :
    build_context st = String.intercalate "\n"
      (chunkSection st.processed_chunks ++ historySection st.chat_history ++
        memorySection st.current_conversation) ∧
    chunkSection [] = [] ∧ historySection [] = [] ∧ memorySection [] = [] ∧
    ∀ h : List HistEntry, historySection h = historySection (h.drop (h.length - 3)) := by
  refine ⟨rfl, rfl, rfl, rfl, ?_⟩
  intro h
  cases h with
  | nil => rfl
  | cons a t =>
    have hne : (a :: t).drop ((a :: t).length - 3) ≠ [] := by
      intro hcon
      have hlen := congrArg List.length hcon
      simp only [List.length_drop, List.length_cons, List.length_nil] at hlen
      omega
    unfold historySection
    rw [if_neg (by simp), if_neg (by simp; omega),
      show ((a :: t).drop ((a :: t).length - 3)).length - 3 = 0 by
        simp only [List.length_drop, List.length_cons]
        omega,
      List.drop_zero]

end Teddy
